import Mathlib

/-!
# Verification of the breach arbiter (`breacharbiter.go`)

A shallow embedding of the persistence layer, the retribution store, the
sweep-transaction builders and the retribution executor of the breach
arbiter, with theorems settling the specification's claims about them.

Bytes are modelled as natural numbers (well-formedness predicates bound
them below 256 where it matters), byte streams as `List Nat`, fallible
Go functions as `Option`/`Except`, and the 64-bit signed `btcutil.Amount`
as `Int` together with explicit two's-complement wrapping.
-/

namespace BreachArbiter

/-! ## Byte-level primitives -/

/-- Big-endian value of a byte list (`binary.BigEndian` semantics). -/
def beVal (l : List Nat) : Nat :=
  l.foldl (fun acc b => acc * 256 + b) 0

/-- `w`-byte big-endian serialization of `n` (truncating to `n % 256^w`,
matching Go's fixed-width unsigned writes). -/
def natToBytesBE : Nat → Nat → List Nat
  | 0, _ => []
  | w + 1, n => natToBytesBE w (n / 256) ++ [n % 256]

/-- Little-endian value of a byte list. -/
def leVal (l : List Nat) : Nat :=
  l.foldr (fun b acc => b + 256 * acc) 0

/-- `w`-byte little-endian serialization of `n`. -/
def natToBytesLE : Nat → Nat → List Nat
  | 0, _ => []
  | w + 1, n => n % 256 :: natToBytesLE w (n / 256)

/-- Read exactly `n` bytes from the stream, returning them and the rest;
`none` when the stream is too short (Go's `io.ReadFull` error). -/
def readBytes (n : Nat) (s : List Nat) : Option (List Nat × List Nat) :=
  if n ≤ s.length then some (s.take n, s.drop n) else none

/-- Read a big-endian `uint64`. -/
def readU64 (s : List Nat) : Option (Nat × List Nat) :=
  (readBytes 8 s).map fun p => (beVal p.1, p.2)

/-- Read a big-endian `uint32`. -/
def readU32 (s : List Nat) : Option (Nat × List Nat) :=
  (readBytes 4 s).map fun p => (beVal p.1, p.2)

/-- Read a big-endian `uint16`. -/
def readU16 (s : List Nat) : Option (Nat × List Nat) :=
  (readBytes 2 s).map fun p => (beVal p.1, p.2)

/-- Read a little-endian `w`-byte unsigned integer. -/
def readLE (w : Nat) (s : List Nat) : Option (Nat × List Nat) :=
  (readBytes w s).map fun p => (leVal p.1, p.2)

/-- `wire.WriteVarInt`: Bitcoin CompactSize serialization.

Modelled from the spec: the "varint" of the on-disk encoding is the btcd
wire collaborator's CompactSize integer — values below `0xfd` as a single
byte, otherwise a discriminant byte `0xfd`/`0xfe`/`0xff` followed by a
little-endian 16/32/64-bit value. -/
def writeVarInt (n : Nat) : List Nat :=
  if n < 0xfd then [n]
  else if n ≤ 0xffff then 0xfd :: natToBytesLE 2 n
  else if n ≤ 0xffffffff then 0xfe :: natToBytesLE 4 n
  else 0xff :: natToBytesLE 8 n

/-- `wire.ReadVarInt`: reads a CompactSize integer, rejecting
non-canonical (over-long) encodings.

Modelled from the spec: inverse of `writeVarInt`, from the same btcd
wire collaborator. -/
def readVarInt (s : List Nat) : Option (Nat × List Nat) :=
  match s with
  | [] => none
  | d :: rest =>
    if d = 0xff then
      (readLE 8 rest).bind fun p =>
        if p.1 < 0x100000000 then none else some p
    else if d = 0xfe then
      (readLE 4 rest).bind fun p =>
        if p.1 < 0x10000 then none else some p
    else if d = 0xfd then
      (readLE 2 rest).bind fun p =>
        if p.1 < 0xfd then none else some p
    else
      some (d, rest)

/-! ## Signed 64-bit arithmetic (`btcutil.Amount` is an `int64`) -/

/-- Two's-complement wrapping of an integer into the signed 64-bit range,
the semantics of Go `int64` arithmetic. -/
def i64 (a : Int) : Int := (a + 2 ^ 63) % 2 ^ 64 - 2 ^ 63

/-- Go's `uint64(a)` conversion of an `int64` value (used by the encoders
before the big-endian write). -/
def amtToU64 (a : Int) : Nat := (a % (2 ^ 64 : Int)).toNat

/-- Go's `btcutil.Amount(u)` (i.e. `int64(u)`) conversion of a decoded
`uint64` value. -/
def u64ToAmt (n : Nat) : Int :=
  if n < 2 ^ 63 then (n : Int) else (n : Int) - 2 ^ 64

/-- The value range of a Go `int64`. -/
def int64Range (a : Int) : Prop := -(2 ^ 63) ≤ a ∧ a < 2 ^ 63

instance (a : Int) : Decidable (int64Range a) := by
  unfold int64Range; infer_instance

/-! ## Data model -/

/-- `wire.OutPoint`: a transaction hash plus an output index. -/
structure OutPoint where
  hash : List Nat
  index : Nat
deriving DecidableEq

/-- Modelled from the spec: `writeOutpoint`, the collaborator
`encode_outpoint` format — the 32-byte txid followed by the big-endian
32-bit output index. -/
def writeOutpoint (o : OutPoint) : List Nat :=
  o.hash ++ natToBytesBE 4 o.index

/-- Modelled from the spec: `readOutpoint`, inverse of the collaborator
`encode_outpoint` format. -/
def readOutpoint (s : List Nat) : Option (OutPoint × List Nat) :=
  (readBytes 32 s).bind fun p =>
  (readU32 p.2).map fun q => ({ hash := p.1, index := q.1 }, q.2)

/-- A well-formed outpoint: 32 hash bytes, 32-bit index. -/
def WFOutPoint (o : OutPoint) : Prop :=
  o.hash.length = 32 ∧ (∀ b ∈ o.hash, b < 256) ∧ o.index < 2 ^ 32

instance (o : OutPoint) : Decidable (WFOutPoint o) := by
  unfold WFOutPoint; infer_instance

/-- Modelled from the spec: a `btcec` compressed secp256k1 public key is
handled as its 33-byte serialization (an `0x02`/`0x03` prefix byte plus
the 32-byte X coordinate). Validity of the serialization; the
curve-membership check performed by the collaborator is abstracted into
this predicate. -/
def isValidPubKey (pk : List Nat) : Bool :=
  pk.length == 33 && (pk.headD 0 == 2 || pk.headD 0 == 3) && pk.all (· < 256)

/-- Modelled from the spec: `btcec.ParsePubKey` on the 33-byte compressed
serialization; `SerializeCompressed` is the identity on this
representation, and parsing accepts exactly the valid serializations. -/
def parsePubKey (bs : List Nat) : Option (List Nat) :=
  if isValidPubKey bs then some bs else none

/-- Modelled from the spec: the sign descriptor is "an opaque
sign-parameter blob consumed by the external signer"; it is handled as
its raw byte blob. -/
abbrev SignDescriptor : Type := List Nat

/-- Modelled from the spec: `lnwallet.WriteSignDescriptor`, the
collaborator `encode_signdesc` format for the opaque sign-parameter blob,
modelled as a self-delimiting length-prefixed byte string. -/
def writeSignDescriptor (sd : SignDescriptor) : List Nat :=
  writeVarInt sd.length ++ sd

/-- Modelled from the spec: `lnwallet.ReadSignDescriptor`, inverse of the
collaborator `encode_signdesc` format. -/
def readSignDescriptor (s : List Nat) : Option (SignDescriptor × List Nat) :=
  (readVarInt s).bind fun p => readBytes p.1 p.2

/-- `breachedOutput`: an output of a revoked commitment the arbiter is
entitled to claim. The transient `witnessFunc` closure is not part of the
persisted record and is therefore not a field of the embedding; witness
generation appears as an explicit oracle argument of the builders. -/
structure breachedOutput where
  amt : Int
  outpoint : OutPoint
  signDescriptor : SignDescriptor
  witnessType : Nat
  twoStageClaim : Bool
deriving DecidableEq

/-- `breachedOutput.Encode`: amount (u64 BE), outpoint, sign descriptor,
witness type (u16 BE, the Go `uint16` cast), two-stage flag (one byte,
`1` or `0`). -/
def breachedOutput.Encode (bo : breachedOutput) : List Nat :=
  natToBytesBE 8 (amtToU64 bo.amt) ++
  writeOutpoint bo.outpoint ++
  writeSignDescriptor bo.signDescriptor ++
  natToBytesBE 2 bo.witnessType ++
  [if bo.twoStageClaim then 1 else 0]

/-- `breachedOutput.Decode`: reads the fields back in order. The two
witness-type bytes are converted with a plain cast — no validation of the
value occurs. The flag byte sets `twoStageClaim` iff it equals `1`. -/
def breachedOutput.Decode (s : List Nat) : Option (breachedOutput × List Nat) :=
  (readU64 s).bind fun a =>
  (readOutpoint a.2).bind fun op =>
  (readSignDescriptor op.2).bind fun sd =>
  (readU16 sd.2).bind fun wt =>
  (readBytes 1 wt.2).map fun tb =>
  ({ amt := u64ToAmt a.1, outpoint := op.1, signDescriptor := sd.1,
     witnessType := wt.1, twoStageClaim := tb.1.headD 0 == 1 }, tb.2)

/-- Well-formedness of a `breachedOutput` as produced by the Go program:
the amount is an `int64`, the outpoint is well formed, the sign
descriptor is a byte blob (whose length fits the varint write), and the
witness type is a `uint16`. -/
def WFbo (bo : breachedOutput) : Prop :=
  int64Range bo.amt ∧ WFOutPoint bo.outpoint ∧
  bo.signDescriptor.length < 2 ^ 64 ∧ (∀ b ∈ bo.signDescriptor, b < 256) ∧
  bo.witnessType < 2 ^ 16

instance (bo : breachedOutput) : Decidable (WFbo bo) := by
  unfold WFbo; infer_instance

/-- `retributionInfo`: the canonical per-breach record. Only the
persisted fields appear; the transient `witnessFunc` and `doneChan`
fields are excluded from the embedding (they are never serialized). -/
structure retributionInfo where
  commitHash : List Nat
  chanPoint : OutPoint
  remoteIdentity : List Nat
  capacity : Int
  settledBalance : Int
  selfOutput : breachedOutput
  revokedOutput : breachedOutput
  htlcOutputs : List breachedOutput
deriving DecidableEq

/-- `retributionInfo.Encode`: commit hash (32 bytes), channel point,
compressed remote identity (33 bytes), capacity and settled balance
(u64 BE each), self output, revoked output, HTLC count (varint), HTLC
outputs in order. -/
def retributionInfo.Encode (r : retributionInfo) : List Nat :=
  r.commitHash ++
  writeOutpoint r.chanPoint ++
  r.remoteIdentity ++
  natToBytesBE 8 (amtToU64 r.capacity) ++
  natToBytesBE 8 (amtToU64 r.settledBalance) ++
  r.selfOutput.Encode ++
  r.revokedOutput.Encode ++
  writeVarInt r.htlcOutputs.length ++
  (r.htlcOutputs.map breachedOutput.Encode).flatten

/-- Decode `n` consecutive HTLC outputs. -/
def decodeHtlcs : Nat → List Nat → Option (List breachedOutput × List Nat)
  | 0, s => some ([], s)
  | n + 1, s =>
    (breachedOutput.Decode s).bind fun p =>
    (decodeHtlcs n p.2).map fun q => (p.1 :: q.1, q.2)

/-- `retributionInfo.Decode`: reads the fields back in order; the remote
identity bytes go through `parsePubKey` and the whole decode fails when
parsing fails. -/
def retributionInfo.Decode (s : List Nat) : Option (retributionInfo × List Nat) :=
  (readBytes 32 s).bind fun ch =>
  (readOutpoint ch.2).bind fun cp =>
  (readBytes 33 cp.2).bind fun pkb =>
  (parsePubKey pkb.1).bind fun pk =>
  (readU64 pkb.2).bind fun cap =>
  (readU64 cap.2).bind fun sb =>
  (breachedOutput.Decode sb.2).bind fun so =>
  (breachedOutput.Decode so.2).bind fun ro =>
  (readVarInt ro.2).bind fun cnt =>
  (decodeHtlcs cnt.1 cnt.2).map fun hs =>
  ({ commitHash := ch.1, chanPoint := cp.1, remoteIdentity := pk,
     capacity := u64ToAmt cap.1, settledBalance := u64ToAmt sb.1,
     selfOutput := so.1, revokedOutput := ro.1, htlcOutputs := hs.1 }, hs.2)

/-- Well-formedness of a `retributionInfo` as produced by the Go
program. -/
def WFret (r : retributionInfo) : Prop :=
  r.commitHash.length = 32 ∧ (∀ b ∈ r.commitHash, b < 256) ∧
  WFOutPoint r.chanPoint ∧
  isValidPubKey r.remoteIdentity = true ∧
  int64Range r.capacity ∧ int64Range r.settledBalance ∧
  WFbo r.selfOutput ∧ WFbo r.revokedOutput ∧
  (∀ bo ∈ r.htlcOutputs, WFbo bo) ∧ r.htlcOutputs.length < 2 ^ 64

instance (r : retributionInfo) : Decidable (WFret r) := by
  unfold WFret; infer_instance

/-! ## The retribution store

The boltdb `"retribution"` bucket is modelled as an association list of
`(key bytes, value bytes)` pairs wrapped in `Option`: `none` is the state
in which the bucket has never been created. `Put` overwrites on key
conflict and `Delete` of an absent key succeeds silently — both boltdb
semantics the store relies on. -/

/-- The backing table's entries. -/
abbrev Bucket : Type := List (List Nat × List Nat)

/-- boltdb `Put`: upsert under the given key. -/
def putAssoc (k v : List Nat) : Bucket → Bucket
  | [] => [(k, v)]
  | (k', v') :: rest =>
      if k' = k then (k, v) :: rest else (k', v') :: putAssoc k v rest

/-- boltdb `Delete`: removes the key's entry; deleting an absent key
succeeds and is a no-op. -/
def delAssoc (k : List Nat) : Bucket → Bucket
  | [] => []
  | (k', v') :: rest =>
      if k' = k then rest else (k', v') :: delAssoc k rest

/-- The database state: the retribution bucket, or `none` when it has
never been created. -/
abbrev DB : Type := Option Bucket

/-- `retributionStore.Add`: creates the bucket if absent, then stores the
encoded record under the encoded channel point. -/
def retributionStore.Add (db : DB) (ret : retributionInfo) : DB :=
  let b := Option.getD db []
  some (putAssoc (writeOutpoint ret.chanPoint) ret.Encode b)

/-- `retributionStore.Remove`: errors when the bucket does not exist,
otherwise deletes the entry under the encoded channel point. -/
def retributionStore.Remove (db : DB) (key : OutPoint) : Except String DB :=
  match db with
  | none => .error "unable to remove retribution because the db bucket doesn't exist."
  | some b => .ok (some (delAssoc (writeOutpoint key) b))

/-- Decode every stored value in order, failing on the first decode
error (the record list `ForAll` hands to its callback). -/
def collectRets : Bucket → Except String (List retributionInfo)
  | [] => .ok []
  | (_, v) :: rest =>
    match retributionInfo.Decode v with
    | none => .error "unable to decode retribution"
    | some p => (collectRets rest).map fun l => p.1 :: l

/-- `retributionStore.ForAll`: a missing bucket means no pending
retributions; otherwise every stored record is decoded and visited in
iteration order. The embedding returns the list of records the callback
is applied to. -/
def retributionStore.ForAll (db : DB) : Except String (List retributionInfo) :=
  match db with
  | none => .ok []
  | some b => collectRets b

/-! ## Transactions and the sweep builders -/

/-- `wire.TxIn` (previous outpoint and witness; the embedding omits the
unused signature-script and sequence fields). -/
structure TxIn where
  previousOutPoint : OutPoint
  witness : List (List Nat)
deriving DecidableEq

/-- `wire.TxOut`. -/
structure TxOut where
  pkScript : List Nat
  value : Int
deriving DecidableEq

/-- `wire.MsgTx` (version, inputs, outputs). -/
structure MsgTx where
  version : Int
  txIn : List TxIn
  txOut : List TxOut
deriving DecidableEq

/-- `createJusticeTx`. The wallet's fresh-script call and the two
witness generators (which in Go are closures over the external signer,
invoked on the assembled transaction and an input index) are passed as
oracles. Faithful to the source: one output of value
`int64(selfOutput.amt + revokedOutput.amt − 5000)`, then the self input,
then the revoked input; the local witness is attached to input 0 before
the remote generator runs on input 1; there is no lower bound check on
the swept amount, and no inputs are added for HTLC outputs. -/
def createJusticeTx (pkRes : Except String (List Nat))
    (localWit remoteWit : MsgTx → Nat → Except String (List (List Nat)))
    (r : retributionInfo) : Except String MsgTx :=
  match pkRes with
  | .error e => .error e
  | .ok pkScriptOfJustice =>
    let totalAmt := i64 (r.selfOutput.amt + r.revokedOutput.amt)
    let sweepedAmt := i64 (totalAmt - 5000)
    let tx0 : MsgTx :=
      { version := 2
        txIn := [{ previousOutPoint := r.selfOutput.outpoint, witness := [] },
                 { previousOutPoint := r.revokedOutput.outpoint, witness := [] }]
        txOut := [{ pkScript := pkScriptOfJustice, value := sweepedAmt }] }
    match localWit tx0 0 with
    | .error e => .error e
    | .ok localWitness =>
      let tx1 : MsgTx := { tx0 with
        txIn := [{ previousOutPoint := r.selfOutput.outpoint, witness := localWitness },
                 { previousOutPoint := r.revokedOutput.outpoint, witness := [] }] }
      match remoteWit tx1 1 with
      | .error e => .error e
      | .ok remoteWitness =>
        .ok { tx1 with
          txIn := [{ previousOutPoint := r.selfOutput.outpoint, witness := localWitness },
                   { previousOutPoint := r.revokedOutput.outpoint, witness := remoteWitness }] }

/-- The error cases of `craftCommitSweepTx`. -/
inductive CraftErr where
  | walletErr (msg : String)
  | outputTooSmall
  | signErr (msg : String)
deriving DecidableEq

/-- `craftCommitSweepTx`. Oracles: the wallet's fresh-script call, the
signer, and the tweaked public key computed by the wallet collaborator.
Faithful to the source: fetch the script, compute
`sweepAmt = int64(outputAmt − 5000)`, fail with the "output to small to
sweep in isolation" error when `sweepAmt ≤ 0`, otherwise assemble a
version-1 transaction with the single self input and the single sweep
output, then sign and attach the two-element p2wkh-style witness. -/
def craftCommitSweepTx (pkRes : Except String (List Nat))
    (signer : MsgTx → Except String (List Nat))
    (selfOutputValue : Int) (selfOutPoint : OutPoint)
    (tweakedPubKey : List Nat) : Except CraftErr MsgTx :=
  match pkRes with
  | .error e => .error (.walletErr e)
  | .ok sweepPkScript =>
    let outputAmt := selfOutputValue
    let sweepAmt := i64 (outputAmt - 5000)
    if sweepAmt ≤ 0 then .error .outputTooSmall
    else
      let tx0 : MsgTx :=
        { version := 1
          txIn := [{ previousOutPoint := selfOutPoint, witness := [] }]
          txOut := [{ pkScript := sweepPkScript, value := sweepAmt }] }
      match signer tx0 with
      | .error e => .error (.signErr e)
      | .ok sweepSig =>
        .ok { tx0 with
          txIn := [{ previousOutPoint := selfOutPoint,
                     witness := [sweepSig ++ [1], tweakedPubKey] }] }

/-- The breach observer's unilateral-close callback publishes the sweep
transaction exactly when `craftCommitSweepTx` returned one; on error it
jumps to the close label without publishing. -/
def sweepPublishAttempted (craftRes : Except CraftErr MsgTx) : Bool :=
  match craftRes with
  | .error _ => false
  | .ok _ => true

/-! ## The retribution executor as a trace function

`exactRetribution` is a single goroutine whose behaviour is a function of
what its environment hands it: the two confirmation-channel receives, and
the results of the collaborator calls it makes in between. The embedding
maps those inputs to the ordered list of externally visible actions the
goroutine performs. -/

/-- What a receive on a confirmation channel (or the quit channel)
yields: a real confirmation, a closed channel (`ok = false`, notifier
shutdown), or the arbiter's quit signal. -/
inductive ConfRecv where
  | confirmed
  | closedChan
  | quit
deriving DecidableEq

/-- The externally visible actions of `exactRetribution`, in program
order. -/
inductive Action where
  | buildJustice
  | publishJustice
  | registerConf
  | markClosed
  | removeRecord
  | closeDone
deriving DecidableEq

/-- `exactRetribution` as a trace function. Arguments, in the order the
source consults them: the first receive (breach-tx confirmation), the
`createJusticeTx` result, the `GetBestBlock` result, the
`PublishTransaction` error, the justice-tx `RegisterConfirmationsNtfn`
result, the second receive (justice-tx confirmation), and the errors of
`MarkChanFullyClosed` and `retributionStore.Remove`. Each collaborator
failure before the second receive aborts the goroutine; the mark and
remove errors are only logged, so the tail of the trace does not depend
on them. -/
def exactRetribution (ev1 : ConfRecv)
    (justiceRes : Except String MsgTx)
    (heightRes : Except String Int)
    (publishErr : Option String)
    (regRes : Except String Unit)
    (ev2 : ConfRecv)
    (markErr : Option String)
    (removeErr : Option String) : List Action :=
  match ev1 with
  | .closedChan => []
  | .quit => []
  | .confirmed =>
    .buildJustice ::
      match justiceRes with
      | .error _ => []
      | .ok _ =>
        match heightRes with
        | .error _ => []
        | .ok _ =>
          .publishJustice ::
            match publishErr with
            | some _ => []
            | none =>
              .registerConf ::
                match regRes with
                | .error _ => []
                | .ok _ =>
                  match ev2 with
                  | .closedChan => []
                  | .quit => []
                  | .confirmed => [.markClosed, .removeRecord, .closeDone]

/-! ## Concrete sample data (used by the witnesses) -/

/-- A sample outpoint. -/
def sampleOutPoint : OutPoint := { hash := List.replicate 32 17, index := 9 }

/-- A second, distinct sample outpoint. -/
def sampleOutPoint2 : OutPoint := { hash := List.replicate 32 34, index := 1 }

/-- A sample opaque sign-descriptor blob. -/
def sampleSignDesc : SignDescriptor := [1, 2, 3]

/-- A sample breached output (a local commitment output; witness-type
tag 0 is `lnwallet.CommitmentNoDelay`). -/
def sampleBo : breachedOutput :=
  { amt := 7000, outpoint := sampleOutPoint, signDescriptor := sampleSignDesc,
    witnessType := 0, twoStageClaim := false }

/-- A second sample breached output (a revoked output). -/
def sampleBo2 : breachedOutput :=
  { amt := 9000, outpoint := sampleOutPoint2, signDescriptor := [],
    witnessType := 1, twoStageClaim := true }

/-- A sample valid compressed public key serialization. -/
def samplePubKey : List Nat := 2 :: List.replicate 32 5

/-- A sample retribution record with no HTLC outputs. -/
def sampleRet : retributionInfo :=
  { commitHash := List.replicate 32 3, chanPoint := sampleOutPoint,
    remoteIdentity := samplePubKey, capacity := 20000, settledBalance := 8000,
    selfOutput := sampleBo, revokedOutput := sampleBo2, htlcOutputs := [] }

/-- A sample retribution record with one HTLC output. -/
def sampleRetHtlc : retributionInfo :=
  { sampleRet with htlcOutputs := [sampleBo2] }

/-- A record sharing `sampleRet`'s channel point but differing in its
other fields (the second add of the upsert scenario). -/
def sampleRetB : retributionInfo :=
  { sampleRet with
    capacity := 123
    settledBalance := 45
    selfOutput := { sampleBo with amt := 11 } }

/-- A breached output carrying a witness-type tag that is not one of the
known variants (the known tags are the small `lnwallet.WitnessType`
enumeration values). -/
def unknownWtOutput : breachedOutput :=
  { sampleBo with witnessType := 65535 }

/-! ## Lemmas about the byte-level primitives -/

theorem beVal_append_singleton (l : List Nat) (b : Nat) :
    beVal (l ++ [b]) = beVal l * 256 + b := by
  simp [beVal, List.foldl_append]

theorem natToBytesBE_length (w n : Nat) : (natToBytesBE w n).length = w := by
  induction w generalizing n with
  | zero => rfl
  | succ w ih => simp [natToBytesBE, ih]

theorem beVal_natToBytesBE (w n : Nat) : beVal (natToBytesBE w n) = n % 256 ^ w := by
  induction w generalizing n with
  | zero => simp [natToBytesBE, beVal, Nat.mod_one]
  | succ w ih =>
      rw [natToBytesBE, beVal_append_singleton, ih]
      rw [pow_succ', Nat.mod_mul]
      ring

theorem natToBytesBE_lt (w n : Nat) : ∀ b ∈ natToBytesBE w n, b < 256 := by
  induction w generalizing n with
  | zero => simp [natToBytesBE]
  | succ w ih =>
      intro b hb
      rw [natToBytesBE] at hb
      rcases List.mem_append.mp hb with h | h
      · exact ih _ b h
      · simp only [List.mem_singleton] at h
        subst h
        exact Nat.mod_lt _ (by norm_num)

theorem readBytes_append (l rest : List Nat) :
    readBytes l.length (l ++ rest) = some (l, rest) := by
  unfold readBytes
  rw [if_pos (by simp)]
  rw [List.take_left, List.drop_left]

theorem readBytes_append_of_length {n : Nat} (l rest : List Nat) (h : l.length = n) :
    readBytes n (l ++ rest) = some (l, rest) := by
  subst h; exact readBytes_append l rest

theorem readU64_append (n : Nat) (h : n < 2 ^ 64) (rest : List Nat) :
    readU64 (natToBytesBE 8 n ++ rest) = some (n, rest) := by
  unfold readU64
  rw [readBytes_append_of_length _ _ (natToBytesBE_length 8 n)]
  have hlt : n < 18446744073709551616 := by norm_num at h; exact h
  simp [beVal_natToBytesBE, Nat.mod_eq_of_lt hlt]

theorem readU32_append (n : Nat) (h : n < 2 ^ 32) (rest : List Nat) :
    readU32 (natToBytesBE 4 n ++ rest) = some (n, rest) := by
  unfold readU32
  rw [readBytes_append_of_length _ _ (natToBytesBE_length 4 n)]
  have hlt : n < 4294967296 := by norm_num at h; exact h
  simp [beVal_natToBytesBE, Nat.mod_eq_of_lt hlt]

theorem readU16_append (n : Nat) (h : n < 2 ^ 16) (rest : List Nat) :
    readU16 (natToBytesBE 2 n ++ rest) = some (n, rest) := by
  unfold readU16
  rw [readBytes_append_of_length _ _ (natToBytesBE_length 2 n)]
  have hlt : n < 65536 := by norm_num at h; exact h
  simp [beVal_natToBytesBE, Nat.mod_eq_of_lt hlt]

theorem natToBytesLE_length (w n : Nat) : (natToBytesLE w n).length = w := by
  induction w generalizing n with
  | zero => rfl
  | succ w ih => simp [natToBytesLE, ih]

theorem leVal_natToBytesLE (w n : Nat) : leVal (natToBytesLE w n) = n % 256 ^ w := by
  induction w generalizing n with
  | zero => simp [natToBytesLE, leVal, Nat.mod_one]
  | succ w ih =>
      rw [natToBytesLE]
      show n % 256 + 256 * leVal (natToBytesLE w (n / 256)) = _
      rw [ih, pow_succ', Nat.mod_mul]

theorem readLE_append (w n : Nat) (h : n < 256 ^ w) (rest : List Nat) :
    readLE w (natToBytesLE w n ++ rest) = some (n, rest) := by
  unfold readLE
  rw [readBytes_append_of_length _ _ (natToBytesLE_length w n)]
  simp [leVal_natToBytesLE, Nat.mod_eq_of_lt h]

theorem readVarInt_append (n : Nat) (h : n < 2 ^ 64) (rest : List Nat) :
    readVarInt (writeVarInt n ++ rest) = some (n, rest) := by
  unfold writeVarInt
  by_cases h1 : n < 0xfd
  · rw [if_pos h1]
    show readVarInt (n :: rest) = _
    simp only [readVarInt]
    rw [if_neg (by omega : ¬ n = 0xff), if_neg (by omega : ¬ n = 0xfe),
      if_neg (by omega : ¬ n = 0xfd)]
  · rw [if_neg h1]
    by_cases h2 : n ≤ 0xffff
    · rw [if_pos h2]
      show readVarInt (0xfd :: (natToBytesLE 2 n ++ rest)) = _
      simp only [readVarInt]
      rw [if_neg (by decide : ¬ (0xfd : Nat) = 0xff),
        if_neg (by decide : ¬ (0xfd : Nat) = 0xfe), if_pos trivial]
      rw [readLE_append 2 n (by norm_num; omega) rest]
      simp only [Option.some_bind]
      rw [if_neg (by omega : ¬ n < 0xfd)]
    · rw [if_neg h2]
      by_cases h3 : n ≤ 0xffffffff
      · rw [if_pos h3]
        show readVarInt (0xfe :: (natToBytesLE 4 n ++ rest)) = _
        simp only [readVarInt]
        rw [if_neg (by decide : ¬ (0xfe : Nat) = 0xff), if_pos trivial]
        rw [readLE_append 4 n (by norm_num; omega) rest]
        simp only [Option.some_bind]
        rw [if_neg (by omega : ¬ n < 0x10000)]
      · rw [if_neg h3]
        show readVarInt (0xff :: (natToBytesLE 8 n ++ rest)) = _
        simp only [readVarInt]
        rw [if_pos trivial]
        rw [readLE_append 8 n (by norm_num at h ⊢; omega) rest]
        simp only [Option.some_bind]
        rw [if_neg (by omega : ¬ n < 0x100000000)]

/-! ## Round-trip lemmas for the record serialization -/

theorem amtToU64_lt (a : Int) : amtToU64 a < 2 ^ 64 := by
  unfold amtToU64
  have h1 : a % (2 ^ 64 : Int) < 2 ^ 64 := Int.emod_lt_of_pos a (by norm_num)
  have h2 : 0 ≤ a % (2 ^ 64 : Int) := Int.emod_nonneg a (by norm_num)
  omega

theorem u64ToAmt_amtToU64 (a : Int) (h : int64Range a) : u64ToAmt (amtToU64 a) = a := by
  unfold int64Range at h
  unfold u64ToAmt amtToU64
  have h2 : 0 ≤ a % (2 ^ 64 : Int) := Int.emod_nonneg a (by norm_num)
  have h3 : a % (2 ^ 64 : Int) < 2 ^ 64 := Int.emod_lt_of_pos a (by norm_num)
  have h4 : a % (2 ^ 64 : Int) = a ∨ a % (2 ^ 64 : Int) = a + 2 ^ 64 := by
    rcases le_or_lt 0 a with hpos | hneg
    · left
      exact Int.emod_eq_of_lt hpos (by omega)
    · right
      have : (a + 2 ^ 64) % (2 ^ 64 : Int) = a % (2 ^ 64 : Int) := by
        simp [Int.add_mul_emod_self_left]
      rw [← this]
      exact Int.emod_eq_of_lt (by omega) (by omega)
  omega

theorem readOutpoint_append (o : OutPoint) (h : WFOutPoint o) (rest : List Nat) :
    readOutpoint (writeOutpoint o ++ rest) = some (o, rest) := by
  obtain ⟨hlen, _, hidx⟩ := h
  unfold writeOutpoint readOutpoint
  rw [List.append_assoc]
  rw [readBytes_append_of_length o.hash _ hlen]
  simp only [Option.some_bind]
  rw [readU32_append o.index hidx rest]
  rfl

theorem readSignDescriptor_append (sd : SignDescriptor) (h : sd.length < 2 ^ 64)
    (rest : List Nat) :
    readSignDescriptor (writeSignDescriptor sd ++ rest) = some (sd, rest) := by
  unfold writeSignDescriptor readSignDescriptor
  rw [List.append_assoc]
  rw [readVarInt_append sd.length h]
  simp only [Option.some_bind]
  exact readBytes_append sd rest

theorem parsePubKey_of_valid {pk : List Nat} (h : isValidPubKey pk = true) :
    parsePubKey pk = some pk := by
  unfold parsePubKey
  rw [if_pos h]

theorem length_of_isValidPubKey {pk : List Nat} (h : isValidPubKey pk = true) :
    pk.length = 33 := by
  unfold isValidPubKey at h
  simp only [Bool.and_eq_true, beq_iff_eq] at h
  exact h.1.1

theorem breachedOutput_roundtrip (bo : breachedOutput) (h : WFbo bo) (rest : List Nat) :
    breachedOutput.Decode (bo.Encode ++ rest) = some (bo, rest) := by
  obtain ⟨ha, hop, hsd, _, hwt⟩ := h
  unfold breachedOutput.Encode breachedOutput.Decode
  simp only [List.append_assoc]
  rw [readU64_append _ (amtToU64_lt bo.amt)]
  simp only [Option.some_bind]
  rw [readOutpoint_append bo.outpoint hop]
  simp only [Option.some_bind]
  rw [readSignDescriptor_append _ hsd]
  simp only [Option.some_bind]
  rw [readU16_append _ hwt]
  simp only [Option.some_bind]
  rw [readBytes_append_of_length [if bo.twoStageClaim then 1 else 0] rest (by simp)]
  simp only [Option.map_some']
  rw [u64ToAmt_amtToU64 _ ha]
  have hflag : ((if bo.twoStageClaim then (1 : Nat) else 0) == 1) = bo.twoStageClaim := by
    cases bo.twoStageClaim <;> rfl
  simp [hflag]

theorem decodeHtlcs_append (l : List breachedOutput) (h : ∀ bo ∈ l, WFbo bo)
    (rest : List Nat) :
    decodeHtlcs l.length ((l.map breachedOutput.Encode).flatten ++ rest) =
      some (l, rest) := by
  induction l with
  | nil => simp [decodeHtlcs]
  | cons bo l ih =>
      simp only [List.map_cons, List.flatten_cons, List.length_cons, List.append_assoc]
      rw [decodeHtlcs]
      rw [breachedOutput_roundtrip bo (h bo (by simp))]
      simp only [Option.some_bind]
      rw [ih (fun b hb => h b (by simp [hb]))]
      rfl

theorem retributionInfo_roundtrip (r : retributionInfo) (h : WFret r)
    (rest : List Nat) :
    retributionInfo.Decode (r.Encode ++ rest) = some (r, rest) := by
  obtain ⟨hch, _, hcp, hpk, hcap, hsb, hso, hro, hh, hhl⟩ := h
  unfold retributionInfo.Encode retributionInfo.Decode
  simp only [List.append_assoc]
  rw [readBytes_append_of_length r.commitHash _ hch]
  simp only [Option.some_bind]
  rw [readOutpoint_append r.chanPoint hcp]
  simp only [Option.some_bind]
  rw [readBytes_append_of_length r.remoteIdentity _ (length_of_isValidPubKey hpk)]
  simp only [Option.some_bind]
  rw [parsePubKey_of_valid hpk]
  simp only [Option.some_bind]
  rw [readU64_append _ (amtToU64_lt r.capacity)]
  simp only [Option.some_bind]
  rw [readU64_append _ (amtToU64_lt r.settledBalance)]
  simp only [Option.some_bind]
  rw [breachedOutput_roundtrip r.selfOutput hso]
  simp only [Option.some_bind]
  rw [breachedOutput_roundtrip r.revokedOutput hro]
  simp only [Option.some_bind]
  rw [readVarInt_append r.htlcOutputs.length hhl]
  simp only [Option.some_bind]
  rw [decodeHtlcs_append r.htlcOutputs hh]
  simp only [Option.map_some']
  rw [u64ToAmt_amtToU64 _ hcap, u64ToAmt_amtToU64 _ hsb]

/-! ## Arithmetic facts about the wrapped 64-bit operations -/

theorem i64_eq_of_range (a : Int) (h1 : -9223372036854775808 ≤ a)
    (h2 : a < 9223372036854775808) : i64 a = a := by
  unfold i64
  have heq : (a + 2 ^ 63) % (2 ^ 64 : Int) = a + 2 ^ 63 :=
    Int.emod_eq_of_lt (by omega) (by omega)
  omega

/-! ## The claims -/

/-- C1: for every `retributionInfo` whose remote identity is a valid
compressed secp256k1 public key and whose `htlcOutputs` list has any
length, decoding the byte stream produced by `Encode` yields a record
equal to the original in every persisted field (the transient
`witnessFunc` and `doneChan` are not fields of the persisted record);
likewise `Decode (Encode bo)` recovers every `breachedOutput` in `amt`,
`outpoint`, `signDescriptor`, `witnessType` and `twoStageClaim`. -/
theorem C1_encode_decode_roundtrip :
    (∀ (r : retributionInfo), WFret r → ∀ rest : List Nat,
        retributionInfo.Decode (r.Encode ++ rest) = some (r, rest)) ∧
    (∀ (bo : breachedOutput), WFbo bo → ∀ rest : List Nat,
        breachedOutput.Decode (bo.Encode ++ rest) = some (bo, rest)) :=
  ⟨fun r h rest => retributionInfo_roundtrip r h rest,
   fun bo h rest => breachedOutput_roundtrip bo h rest⟩

/-- Witness for C1 at a concrete record with one HTLC output and a
concrete breached output. -/
theorem C1_encode_decode_roundtrip_witness :
    WFret sampleRetHtlc ∧
    retributionInfo.Decode (sampleRetHtlc.Encode ++ []) = some (sampleRetHtlc, []) ∧
    WFbo sampleBo2 ∧
    breachedOutput.Decode (sampleBo2.Encode ++ []) = some (sampleBo2, []) :=
  ⟨by decide, C1_encode_decode_roundtrip.1 sampleRetHtlc (by decide) [],
   by decide, C1_encode_decode_roundtrip.2 sampleBo2 (by decide) []⟩

/-- C3 counterexample: the claim says `breachedOutput.Decode` rejects
byte streams whose two witness-type bytes hold an unknown variant; here
is a stream whose witness-type field is `0xffff` — no
`lnwallet.WitnessType` variant — which `Decode` accepts, returning a
record that carries the unknown value. -/
theorem C3_counterexample :
    breachedOutput.Decode unknownWtOutput.Encode = some (unknownWtOutput, []) ∧
    unknownWtOutput.witnessType = 0xffff := by
  constructor
  · have h := breachedOutput_roundtrip unknownWtOutput (by decide) []
    rwa [List.append_nil] at h
  · rfl

/-- C3 amended: the decoder performs no validation of the witness-type
field — it stores the raw 16-bit value in the decoded record, so
decoding succeeds for every well-formed `breachedOutput` irrespective of
whether its `witnessType` is a known variant. -/
theorem C3_decode_accepts_any_witnessType (amt : Int) (op : OutPoint)
    (sd : SignDescriptor) (wt : Nat) (tsc : Bool)
    (h : WFbo { amt := amt, outpoint := op, signDescriptor := sd,
                witnessType := wt, twoStageClaim := tsc }) :
    breachedOutput.Decode
        (breachedOutput.Encode
          { amt := amt, outpoint := op, signDescriptor := sd,
            witnessType := wt, twoStageClaim := tsc }) =
      some ({ amt := amt, outpoint := op, signDescriptor := sd,
              witnessType := wt, twoStageClaim := tsc }, []) := by
  have hh := breachedOutput_roundtrip _ h []
  rwa [List.append_nil] at hh

/-- Witness for the amended C3 at the unknown witness-type value
`0xffff`. -/
theorem C3_decode_accepts_any_witnessType_witness :
    WFbo { amt := 7000, outpoint := sampleOutPoint, signDescriptor := sampleSignDesc,
           witnessType := 0xffff, twoStageClaim := false } ∧
    breachedOutput.Decode
        (breachedOutput.Encode
          { amt := 7000, outpoint := sampleOutPoint, signDescriptor := sampleSignDesc,
            witnessType := 0xffff, twoStageClaim := false }) =
      some ({ amt := 7000, outpoint := sampleOutPoint, signDescriptor := sampleSignDesc,
              witnessType := 0xffff, twoStageClaim := false }, []) :=
  ⟨by decide,
   C3_decode_accepts_any_witnessType 7000 sampleOutPoint sampleSignDesc 0xffff false
     (by decide)⟩

/-- C5: adding two records with the same channel point (starting from a
fresh store) leaves exactly one record under that key, and `ForAll`
visits exactly that one record, equal to the second add. -/
theorem C5_store_upsert (r1 r2 : retributionInfo)
    (heq : r1.chanPoint = r2.chanPoint) (h2 : WFret r2) :
    retributionStore.ForAll
        (retributionStore.Add (retributionStore.Add none r1) r2) =
      .ok [r2] := by
  have hdec : retributionInfo.Decode r2.Encode = some (r2, []) := by
    have h := retributionInfo_roundtrip r2 h2 []
    rwa [List.append_nil] at h
  unfold retributionStore.Add retributionStore.ForAll
  simp only [Option.getD, heq, putAssoc, if_pos]
  simp only [collectRets, hdec]
  rfl

/-- Witness for C5: `sampleRet` and `sampleRetB` share a channel point;
after both adds `ForAll` sees exactly `sampleRetB`. -/
theorem C5_store_upsert_witness :
    sampleRet.chanPoint = sampleRetB.chanPoint ∧ WFret sampleRetB ∧
    retributionStore.ForAll
        (retributionStore.Add (retributionStore.Add none sampleRet) sampleRetB) =
      .ok [sampleRetB] :=
  ⟨rfl, by decide, C5_store_upsert sampleRet sampleRetB rfl (by decide)⟩

/-- C6 counterexample: the claim says `Remove` errors whenever the
backing table is empty or does not exist; but on an existing, empty
table (the state left behind by an add followed by a remove) `Remove`
succeeds — boltdb's delete of an absent key is a silent no-op, and the
store only checks that the bucket itself exists. -/
theorem C6_counterexample :
    retributionStore.Remove (some ([] : Bucket)) sampleOutPoint =
      .ok (some ([] : Bucket)) ∧
    retributionStore.Remove
        (retributionStore.Add none sampleRet) sampleRet.chanPoint =
      .ok (some ([] : Bucket)) := by
  constructor
  · rfl
  · rfl

/-- C6 amended: `Remove` returns an error exactly when the backing
table has never been created; on an existing table — even an empty one,
or one without the key — it succeeds. -/
theorem C6_remove_error_iff_no_bucket (db : DB) (k : OutPoint) :
    (∃ e, retributionStore.Remove db k = .error e) ↔ db = none := by
  cases db with
  | none => exact ⟨fun _ => rfl, fun _ => ⟨_, rfl⟩⟩
  | some b =>
      constructor
      · rintro ⟨e, he⟩
        simp [retributionStore.Remove] at he
      · intro hcontra
        cases hcontra

/-- C2: whenever `createJusticeTx` succeeds on a retribution with no
HTLC outputs (amounts in the representable range), the transaction has
version 2, exactly two inputs whose previous outpoints are the self
outpoint (index 0) and the revoked outpoint (index 1), and exactly one
output paying the wallet-supplied script with value `A + B − 5000`. -/
theorem C2_justice_tx_shape (pkRes : Except String (List Nat))
    (localWit remoteWit : MsgTx → Nat → Except String (List (List Nat)))
    (r : retributionInfo) (tx : MsgTx)
    (hA : 0 ≤ r.selfOutput.amt) (hB : 0 ≤ r.revokedOutput.amt)
    (hsum : r.selfOutput.amt + r.revokedOutput.amt < 9223372036854775808)
    (hhtlc : r.htlcOutputs = [])
    (hok : createJusticeTx pkRes localWit remoteWit r = .ok tx) :
    tx.version = 2 ∧
    tx.txIn.map TxIn.previousOutPoint =
      [r.selfOutput.outpoint, r.revokedOutput.outpoint] ∧
    ∃ pk, pkRes = .ok pk ∧
      tx.txOut = [{ pkScript := pk,
                    value := r.selfOutput.amt + r.revokedOutput.amt - 5000 }] := by
  have h1 : i64 (r.selfOutput.amt + r.revokedOutput.amt) =
      r.selfOutput.amt + r.revokedOutput.amt :=
    i64_eq_of_range _ (by omega) (by omega)
  have h2 : i64 (r.selfOutput.amt + r.revokedOutput.amt - 5000) =
      r.selfOutput.amt + r.revokedOutput.amt - 5000 :=
    i64_eq_of_range _ (by omega) (by omega)
  cases pkRes with
  | error e => simp [createJusticeTx] at hok
  | ok pk =>
    simp only [createJusticeTx] at hok
    split at hok
    · exact Except.noConfusion hok
    · split at hok
      · exact Except.noConfusion hok
      · injection hok with hok
        subst hok
        refine ⟨rfl, rfl, pk, rfl, ?_⟩
        rw [h1, h2]

/-- Witness for C2 at `sampleRet` with trivially succeeding wallet and
witness oracles. -/
theorem C2_justice_tx_shape_witness :
    (0 : Int) ≤ sampleRet.selfOutput.amt ∧
    (0 : Int) ≤ sampleRet.revokedOutput.amt ∧
    sampleRet.selfOutput.amt + sampleRet.revokedOutput.amt < 9223372036854775808 ∧
    sampleRet.htlcOutputs = [] ∧
    ∃ tx, createJusticeTx (.ok [0]) (fun _ _ => .ok [[5]]) (fun _ _ => .ok [[6]])
        sampleRet = .ok tx ∧
      (tx.version = 2 ∧
       tx.txIn.map TxIn.previousOutPoint =
         [sampleRet.selfOutput.outpoint, sampleRet.revokedOutput.outpoint] ∧
       ∃ pk, (Except.ok [0] : Except String (List Nat)) = .ok pk ∧
         tx.txOut = [{ pkScript := pk,
                       value := sampleRet.selfOutput.amt +
                                sampleRet.revokedOutput.amt - 5000 }]) :=
  ⟨by decide, by decide, by decide, rfl,
   ⟨_, rfl,
    C2_justice_tx_shape (.ok [0]) (fun _ _ => .ok [[5]]) (fun _ _ => .ok [[6]])
      sampleRet _ (by decide) (by decide) (by decide) rfl rfl⟩⟩

/-- C10: `createJusticeTx` has no lower-bound check on the swept amount —
for every retribution whose two commitment amounts sum to at most 5000,
with succeeding collaborators it still returns a transaction whose single
output value, the signed 64-bit result of `A + B − 5000`, is zero or
negative; it does not fail the way `craftCommitSweepTx` does. -/
theorem C10_dust_output_still_built (pk : List Nat)
    (lwit rwit : List (List Nat)) (r : retributionInfo)
    (hA : 0 ≤ r.selfOutput.amt) (hB : 0 ≤ r.revokedOutput.amt)
    (hle : r.selfOutput.amt + r.revokedOutput.amt ≤ 5000) :
    ∃ tx, createJusticeTx (.ok pk) (fun _ _ => .ok lwit) (fun _ _ => .ok rwit)
        r = .ok tx ∧
      tx.txOut.map TxOut.value =
        [r.selfOutput.amt + r.revokedOutput.amt - 5000] ∧
      r.selfOutput.amt + r.revokedOutput.amt - 5000 ≤ 0 := by
  have h1 : i64 (r.selfOutput.amt + r.revokedOutput.amt) =
      r.selfOutput.amt + r.revokedOutput.amt :=
    i64_eq_of_range _ (by omega) (by omega)
  have h2 : i64 (r.selfOutput.amt + r.revokedOutput.amt - 5000) =
      r.selfOutput.amt + r.revokedOutput.amt - 5000 :=
    i64_eq_of_range _ (by omega) (by omega)
  refine ⟨_, rfl, ?_, by omega⟩
  simp [createJusticeTx, h1, h2]

/-- Witness for C10 at a dust-level retribution (`A = 2000`,
`B = 1000`). -/
theorem C10_dust_output_still_built_witness :
    (0 : Int) ≤ (2000 : Int) ∧ (0 : Int) ≤ (1000 : Int) ∧
    (2000 : Int) + 1000 ≤ 5000 ∧
    ∃ tx, createJusticeTx (.ok [0]) (fun _ _ => .ok [[5]]) (fun _ _ => .ok [[6]])
        { sampleRet with
          selfOutput := { sampleBo with amt := 2000 }
          revokedOutput := { sampleBo2 with amt := 1000 } } = .ok tx ∧
      tx.txOut.map TxOut.value =
        [({ sampleRet with
            selfOutput := { sampleBo with amt := 2000 }
            revokedOutput := { sampleBo2 with amt := 1000 } } :
              retributionInfo).selfOutput.amt +
         ({ sampleRet with
            selfOutput := { sampleBo with amt := 2000 }
            revokedOutput := { sampleBo2 with amt := 1000 } } :
              retributionInfo).revokedOutput.amt - 5000] ∧
      ({ sampleRet with
         selfOutput := { sampleBo with amt := 2000 }
         revokedOutput := { sampleBo2 with amt := 1000 } } :
           retributionInfo).selfOutput.amt +
        ({ sampleRet with
           selfOutput := { sampleBo with amt := 2000 }
           revokedOutput := { sampleBo2 with amt := 1000 } } :
             retributionInfo).revokedOutput.amt - 5000 ≤ 0 :=
  ⟨by decide, by decide, by decide,
   C10_dust_output_still_built [0] [[5]] [[6]]
     { sampleRet with
       selfOutput := { sampleBo with amt := 2000 }
       revokedOutput := { sampleBo2 with amt := 1000 } }
     (by decide) (by decide) (by decide)⟩

/-- C4: for every unilateral-close summary whose self-output value is at
most 5000 satoshis (and the wallet's fresh-script call succeeds),
`craftCommitSweepTx` fails with the output-too-small error and returns
no transaction, so the observer publishes nothing. -/
theorem C4_small_sweep_fails (pk : List Nat)
    (signer : MsgTx → Except String (List Nat))
    (v : Int) (op : OutPoint) (tpk : List Nat)
    (h0 : 0 ≤ v) (hv : v ≤ 5000) :
    craftCommitSweepTx (.ok pk) signer v op tpk = .error .outputTooSmall ∧
    sweepPublishAttempted (craftCommitSweepTx (.ok pk) signer v op tpk) = false := by
  have hle : i64 (v - 5000) ≤ 0 := by
    have h := i64_eq_of_range (v - 5000) (by omega) (by omega)
    omega
  have hmain : craftCommitSweepTx (.ok pk) signer v op tpk =
      .error .outputTooSmall := by
    simp only [craftCommitSweepTx]
    rw [if_pos hle]
  refine ⟨hmain, ?_⟩
  rw [hmain]
  rfl


/-- Witness for C4 at the spec scenario's self-output value of 4999. -/
theorem C4_small_sweep_fails_witness :
    (0 : Int) ≤ 4999 ∧ (4999 : Int) ≤ 5000 ∧
    craftCommitSweepTx (.ok [0]) (fun _ => .ok []) 4999 sampleOutPoint [] =
      .error .outputTooSmall ∧
    sweepPublishAttempted
        (craftCommitSweepTx (.ok [0]) (fun _ => .ok []) 4999 sampleOutPoint []) =
      false :=
  ⟨by decide, by decide,
   (C4_small_sweep_fails [0] (fun _ => .ok []) 4999 sampleOutPoint []
      (by decide) (by decide)).1,
   (C4_small_sweep_fails [0] (fun _ => .ok []) 4999 sampleOutPoint []
      (by decide) (by decide)).2⟩

/-- C7: when the first receive on the breach-confirmation channel
reports a closed channel (`ok = false`, notifier shutdown),
`exactRetribution` returns immediately: the trace is empty — no justice
transaction is built or published and the retribution record is not
removed. -/
theorem C7_notifier_shutdown_exits_cleanly (justiceRes : Except String MsgTx)
    (heightRes : Except String Int) (publishErr : Option String)
    (regRes : Except String Unit) (ev2 : ConfRecv)
    (markErr removeErr : Option String) :
    exactRetribution .closedChan justiceRes heightRes publishErr regRes ev2
      markErr removeErr = [] := rfl

/-- C8: in every execution that receives the justice transaction's
confirmation, the trace ends with marking the channel fully closed,
then removing the retribution record, then closing `doneChan` — in that
order, whatever the mark/remove call results are; the reverse order
never occurs. -/
theorem C8_mark_precedes_remove_precedes_done (tx : MsgTx) (ht : Int)
    (markErr removeErr : Option String) :
    exactRetribution .confirmed (.ok tx) (.ok ht) none (.ok ()) .confirmed
        markErr removeErr =
      [.buildJustice, .publishJustice, .registerConf, .markClosed,
       .removeRecord, .closeDone] ∧
    (exactRetribution .confirmed (.ok tx) (.ok ht) none (.ok ()) .confirmed
        markErr removeErr).indexOf Action.markClosed <
      (exactRetribution .confirmed (.ok tx) (.ok ht) none (.ok ()) .confirmed
        markErr removeErr).indexOf Action.removeRecord ∧
    (exactRetribution .confirmed (.ok tx) (.ok ht) none (.ok ()) .confirmed
        markErr removeErr).indexOf Action.removeRecord <
      (exactRetribution .confirmed (.ok tx) (.ok ht) none (.ok ()) .confirmed
        markErr removeErr).indexOf Action.closeDone :=
  by
  refine ⟨rfl, ?_, ?_⟩
  · show List.indexOf Action.markClosed
        [.buildJustice, .publishJustice, .registerConf, .markClosed,
         .removeRecord, .closeDone] <
      List.indexOf Action.removeRecord
        [.buildJustice, .publishJustice, .registerConf, .markClosed,
         .removeRecord, .closeDone]
    decide
  · show List.indexOf Action.removeRecord
        [.buildJustice, .publishJustice, .registerConf, .markClosed,
         .removeRecord, .closeDone] <
      List.indexOf Action.closeDone
        [.buildJustice, .publishJustice, .registerConf, .markClosed,
         .removeRecord, .closeDone]
    decide

/-- C9: after the justice transaction confirms, the removal of the
retribution record runs unconditionally even when the preceding
`MarkChanFullyClosed` call returned an error — both errors are only
logged, so the record is deleted although the channel was never marked
fully closed. -/
theorem C9_remove_runs_despite_mark_error (tx : MsgTx) (ht : Int) (e : String)
    (removeErr : Option String) :
    exactRetribution .confirmed (.ok tx) (.ok ht) none (.ok ()) .confirmed
        (some e) removeErr =
      [.buildJustice, .publishJustice, .registerConf, .markClosed,
       .removeRecord, .closeDone] ∧
    Action.removeRecord ∈
      exactRetribution .confirmed (.ok tx) (.ok ht) none (.ok ()) .confirmed
        (some e) removeErr ∧
    Action.closeDone ∈
      exactRetribution .confirmed (.ok tx) (.ok ht) none (.ok ()) .confirmed
        (some e) removeErr :=
  by
  refine ⟨rfl, ?_, ?_⟩
  · show Action.removeRecord ∈
      ([.buildJustice, .publishJustice, .registerConf, .markClosed,
        .removeRecord, .closeDone] : List Action)
    decide
  · show Action.closeDone ∈
      ([.buildJustice, .publishJustice, .registerConf, .markClosed,
        .removeRecord, .closeDone] : List Action)
    decide

end BreachArbiter
